import Mathlib

/-!
Shallow embedding of the expo-mcp subprocess-RPC bridge.

The embedded code is `MaestroManager` (pending-request correlation table,
newline-framed stream decoding, handshake, timeout and teardown handling),
the call router in `McpServer.setupHandlers`, and the `stop_device`
lifecycle handler.  JavaScript strings are modelled as Lean `String`
(router names, error messages) or `List Char` (the stream decoder, where
we recurse over characters), JS `Map` as an ordered list of keys or
entries, and JS promises as an explicit settlement ledger in which a
promise settles at most once.
-/

/-- Minimal JSON value type standing in for the dynamic values carried by
the wire protocol (`JSON.parse` results, request params, tool specs). -/
inductive Json where
  | null
  | bool (b : Bool)
  | num (n : Int)
  | str (s : String)
  | arr (xs : List Json)
  | obj (fields : List (String × Json))

/-- One discovered peer capability.  The source stores the whole tool
object in a `Map` keyed by `tool.name`; we keep the name and the raw
JSON value of the tool object. -/
structure MaestroTool where
  name : String
  spec : Json

/-- Membership test on the pending-request key set, modelling
`this.pendingRequests.has(id)` (JS `Map` keys are unique). -/
def mapHas : List Nat → Nat → Bool
  | [], _ => false
  | x :: xs, id => x == id || mapHas xs id

/-- Removal from the pending-request key set, modelling
`this.pendingRequests.delete(id)`.  A JS `Map` holds each key at most
once, so removing every occurrence is the same operation. -/
def mapDelete : List Nat → Nat → List Nat
  | [], _ => []
  | x :: xs, id => if x == id then mapDelete xs id else x :: mapDelete xs id

/-- Lookup of a tool name, modelling `this.tools.has(name)`. -/
def hasTool : List MaestroTool → String → Bool
  | [], _ => false
  | t :: ts, name => t.name == name || hasTool ts name

/-- Insertion modelling `this.tools.set(t.name, t)`: replace in place if
the key exists, append otherwise (JS `Map` insertion order). -/
def setTool (tools : List MaestroTool) (t : MaestroTool) : List MaestroTool :=
  if hasTool tools t.name then
    tools.map (fun u => if u.name == t.name then t else u)
  else
    tools ++ [t]

/-- The mutable fields of `MaestroManager`.  `process` is true while
`this.process` is non-null (with a usable `stdin`); `readBuffer` holds the
undecoded tail of the stdout stream. -/
structure MaestroState where
  process : Bool
  tools : List MaestroTool
  requestId : Nat
  pendingRequests : List Nat
  readBuffer : List Char
  isInitialized : Bool

/-- Field initializers of the `MaestroManager` class. -/
def MaestroState.initial : MaestroState :=
  { process := false, tools := [], requestId := 0, pendingRequests := [],
    readBuffer := [], isInitialized := false }

/-- Settlement of a pending call: the `resolve` / `reject` completion
handle of its promise, applied to a value or an error message. -/
inductive Outcome where
  | resolved (v : Json)
  | rejected (e : String)

/-- A decoded wire message as inspected by `handleMessage`: the presence
of `message.id`, the derived error text of `message.error`
(`message.error.message || JSON.stringify(message.error)`), and
`message.result`. -/
structure WireMessage where
  msgId : Option Nat
  msgError : Option String
  msgResult : Json

/-- Embedding of `MaestroManager.handleMessage` (part_005 lines 259-270).
Returns the updated state together with the completion-handle invocation
it performs, if any.  The entry is deleted from the table on the line
before the handle is invoked, so the returned state is the table state
visible to re-entrant code running inside the completion handler. -/
def handleMessage (s : MaestroState) (msg : WireMessage) :
    MaestroState × Option (Nat × Outcome) :=
  match msg.msgId with
  | none => (s, none)
  | some id =>
    if mapHas s.pendingRequests id then
      let s' := { s with pendingRequests := mapDelete s.pendingRequests id }
      match msg.msgError with
      | some e => (s', some (id, Outcome.rejected e))
      | none => (s', some (id, Outcome.resolved msg.msgResult))
    else
      (s, none)

/-- Fixed request timeout of `sendRequest` (part_005 line 290). -/
def REQUEST_TIMEOUT_MS : Nat := 30000

/-- Embedding of the timer callback scheduled by `sendRequest`
(part_005 lines 290-295): when it fires, if the id is still pending the
entry is removed and the caller rejected with a timeout error; otherwise
nothing happens. -/
def timeoutFire (s : MaestroState) (id : Nat) : MaestroState × Option (Nat × Outcome) :=
  if mapHas s.pendingRequests id then
    ({ s with pendingRequests := mapDelete s.pendingRequests id },
     some (id, Outcome.rejected "Request timeout"))
  else
    (s, none)

/-- Test modelling `name.startsWith` against the `maestro_` marker on
the underlying character sequence. -/
def startsWithMaestro (name : String) : Bool :=
  "maestro_".data.isPrefixOf name.data

/-- Modelling `name.substring` at the length of the `maestro_` marker:
drop its eight characters. -/
def stripMaestro (name : String) : String :=
  String.mk (name.data.drop 8)

/-- Blank-line test of the stream decoder, modelling
`line.trim().length === 0` (true iff every character is whitespace). -/
def isBlank (l : List Char) : Bool :=
  l.all Char.isWhitespace

/-- Error message thrown by `callTool` before startup completed. -/
def errNotInitializedMsg : String :=
  "MaestroManager not initialized. Call initialize() first."

/-- Error message thrown by `callTool` for a name missing from the
discovered tool table. -/
def toolNotFoundMsg (name : String) : String :=
  "Tool \"" ++ name ++ "\" not found in Maestro MCP"

/-- A request object as built by `initialize` and `callTool`
(`jsonrpc` tag omitted: it is a constant). -/
structure Request where
  method : String
  id : Nat
  params : Json

/-- A timer registered with the runtime: `setTimeout(delayMs)` guarding
request `reqId`. -/
structure TimerEntry where
  reqId : Nat
  delayMs : Nat

/-- Synchronous effects of one `sendRequest` call (part_005 lines
272-297): the updated manager state, an immediate rejection if the
process is gone, the frame written to the stdin of the peer (if any), and the
timeout timer scheduled for the request. -/
structure SendStart where
  state : MaestroState
  result : Except String Unit
  written : Option Request
  timer : Option TimerEntry

/-- Embedding of the synchronous part of `MaestroManager.sendRequest`:
reject at once when the process (and hence its stdin) is absent;
otherwise register the correlation id, write the frame, and schedule the
30-second timeout timer. -/
def sendRequestStart (s : MaestroState) (req : Request) : SendStart :=
  if s.process then
    { state := { s with pendingRequests := s.pendingRequests ++ [req.id] },
      result := Except.ok (),
      written := some req,
      timer := some { reqId := req.id, delayMs := REQUEST_TIMEOUT_MS } }
  else
    { state := s, result := Except.error "Maestro process not running",
      written := none, timer := none }

/-- Embedding of the synchronous prefix of `MaestroManager.callTool`
(part_005 lines 216-236): the not-initialized guard, the unknown-tool
guard, and otherwise the issue of a `tools/call` request under the next
correlation id (`this.requestId++`). -/
def callToolStart (s : MaestroState) (name : String) (args : Json) : SendStart :=
  if s.isInitialized then
    if hasTool s.tools name then
      sendRequestStart { s with requestId := s.requestId + 1 }
        { method := "tools/call", id := s.requestId,
          params := Json.obj [("name", Json.str name), ("arguments", args)] }
    else
      { state := s, result := Except.error (toolNotFoundMsg name),
        written := none, timer := none }
  else
    { state := s, result := Except.error errNotInitializedMsg,
      written := none, timer := none }

/-- Rejection loop of `MaestroManager.cleanup` over the pending table, in
insertion order. -/
def drainLoop : List Nat → List (Nat × Outcome)
  | [] => []
  | id :: rest => (id, Outcome.rejected "Maestro process terminated") :: drainLoop rest

/-- Embedding of `MaestroManager.cleanup` (part_005 lines 299-309): drop
the process handle, mark not ready, clear the tool table, reject every
pending request with the termination error, and clear the pending table.
Returns the new state and the completion-handle invocations performed. -/
def cleanup (s : MaestroState) : MaestroState × List (Nat × Outcome) :=
  ({ s with process := false, isInitialized := false, tools := [],
            pendingRequests := [] },
   drainLoop s.pendingRequests)

/-- The process `exit` / `error` event handlers installed by
`initialize` (part_005 lines 156-164): both log and call `cleanup`. -/
def onProcessExit (s : MaestroState) : MaestroState × List (Nat × Outcome) :=
  cleanup s

/-- Embedding of `MaestroManager.shutdown` (part_005 lines 193-206).
When no process exists the call returns at once.  Otherwise SIGTERM is
sent and after the grace period either the process already exited (its
exit handler ran `cleanup`) or it is SIGKILLed; `cleanup` then runs
(again).  The boolean records whether the exit event fired during the
grace period.  The kill signals themselves are external effects with no
bearing on the manager state. -/
def shutdownModel (s : MaestroState) (exitedDuringGrace : Bool) :
    MaestroState × List (Nat × Outcome) :=
  if s.process then
    if exitedDuringGrace then
      ((cleanup (cleanup s).1).1, (cleanup s).2 ++ (cleanup (cleanup s).1).2)
    else
      cleanup s
  else
    (s, [])

/-- Environment choice for how one awaited request turns out: a success
or error response frame arrives, the timeout timer fires first, the
stdin write fails, or the peer process dies. -/
inductive AwaitOutcome where
  | respOk (v : Json)
  | respErr (e : String)
  | timedOut
  | writeFailed (e : String)
  | procDied

/-- An awaited outcome other than a success response rejects the
caller. -/
def AwaitOutcome.isFailure : AwaitOutcome → Bool
  | .respOk _ => false
  | _ => true

/-- State change and caller-visible result of awaiting a registered
request `id` under a given outcome: response frames run `handleMessage`,
the timer runs the timeout callback, a write failure runs the write
callback (delete then reject), and process death runs `cleanup`. -/
def awaitRequest (s : MaestroState) (id : Nat) :
    AwaitOutcome → MaestroState × Except String Json
  | .respOk v =>
      ((handleMessage s { msgId := some id, msgError := none, msgResult := v }).1,
       Except.ok v)
  | .respErr e =>
      ((handleMessage s { msgId := some id, msgError := some e, msgResult := Json.null }).1,
       Except.error e)
  | .timedOut => ((timeoutFire s id).1, Except.error "Request timeout")
  | .writeFailed e =>
      ({ s with pendingRequests := mapDelete s.pendingRequests id },
       Except.error e)
  | .procDied => ((cleanup s).1, Except.error "Maestro process terminated")

/-- One full `await this.sendRequest(req)` under environment outcome
`o`: the synchronous start followed by the awaited completion. -/
def runRequest (s : MaestroState) (req : Request) (o : AwaitOutcome) :
    MaestroState × Except String Json :=
  match (sendRequestStart s req).result with
  | Except.error e => ((sendRequestStart s req).state, Except.error e)
  | Except.ok _ => awaitRequest (sendRequestStart s req).state req.id o

/-- The `initialize` handshake request (part_005 lines 167-179). -/
def initRequest (id : Nat) : Request :=
  { method := "initialize", id := id,
    params := Json.obj
      [("protocolVersion", Json.str "2024-11-05"),
       ("capabilities", Json.obj []),
       ("clientInfo", Json.obj
          [("name", Json.str "expo-mcp"), ("version", Json.str "0.2.0")])] }

/-- The `tools/list` handshake request (part_005 line 182). -/
def listToolsRequest (id : Nat) : Request :=
  { method := "tools/list", id := id, params := Json.obj [] }

/-- Field access on a JSON object, first binding wins. -/
def lookupField : List (String × Json) → String → Option Json
  | [], _ => none
  | (k, v) :: rest, key => if k == key then some v else lookupField rest key

/-- Modelling `resp.field` property access. -/
def getField : Json → String → Option Json
  | Json.obj fields, key => lookupField fields key
  | _, _ => none

/-- Modelling `tool.name` access; a tool whose name is not a string
would be stored under a non-string key a string lookup can never hit, so
it is dropped. -/
def toolNameOf (j : Json) : Option String :=
  match getField j "name" with
  | some (Json.str s) => some s
  | _ => none

/-- Embedding of the capability-population loop of `initialize`
(part_005 lines 184-188): when the response carries a `tools` array,
insert each element keyed by its name. -/
def populateTools (tools : List MaestroTool) (resp : Json) : List MaestroTool :=
  match getField resp "tools" with
  | some (Json.arr xs) =>
      xs.foldl
        (fun acc x =>
          match toolNameOf x with
          | some n => setTool acc { name := n, spec := x }
          | none => acc)
        tools
  | _ => tools

/-- Embedding of `MaestroManager.initialize` (part_005 lines 136-191)
with the outcome of each of the two awaited handshake requests supplied
by the environment: return at once when already initialized; spawn the
process; issue the `initialize` request then the `tools/list` request
under post-incremented correlation ids; on success of both populate the
tool table and mark the session ready.  A failure of either await
propagates out as the thrown error. -/
def initializeModel (s : MaestroState) (o1 o2 : AwaitOutcome) :
    MaestroState × Except String Unit :=
  if s.isInitialized then
    (s, Except.ok ())
  else
    let s1 : MaestroState := { s with process := true, requestId := s.requestId + 1 }
    match runRequest s1 (initRequest s.requestId) o1 with
    | (s2, Except.error e) => (s2, Except.error e)
    | (s2, Except.ok _) =>
      let s3 : MaestroState := { s2 with requestId := s2.requestId + 1 }
      match runRequest s3 (listToolsRequest s2.requestId) o2 with
      | (s4, Except.error e) => (s4, Except.error e)
      | (s4, Except.ok resp) =>
        ({ s4 with tools := populateTools s4.tools resp, isInitialized := true },
         Except.ok ())

/-- Modelling `buffer.split('\n')` on the character sequence: one more
segment than there are newlines, in order; the last segment is the text
after the final newline (possibly empty). -/
def splitOnNL : List Char → List (List Char)
  | [] => [[]]
  | c :: rest =>
    match splitOnNL rest with
    | seg :: segs => if c == '\n' then [] :: seg :: segs else (c :: seg) :: segs
    | [] => [[]]

/-- The line loop of `handleStdout` (part_005 lines 245-256): skip lines
that are blank after trimming, dispatch each line `JSON.parse` accepts,
and record each line it rejects as a logged failure, continuing with the
remaining lines.  Returns the dispatched messages and the logged
failures, in order. -/
def processLines (parse : List Char → Option Json) :
    List (List Char) → List Json × List (List Char)
  | [] => ([], [])
  | line :: rest =>
    if isBlank line then
      processLines parse rest
    else
      match parse line with
      | some msg =>
        ((processLines parse rest).1.cons msg, (processLines parse rest).2)
      | none =>
        ((processLines parse rest).1, (processLines parse rest).2.cons line)

/-- Embedding of `MaestroManager.handleStdout` (part_005 lines 238-257),
parameterized by the JSON parser: append the chunk to the buffer, split
on newlines, keep the segment after the last newline as the new buffer
(`lines.pop() || ''`), and run the line loop over the remaining
segments.  Returns the new buffer, the dispatched messages and the
logged parse failures. -/
def handleStdout (parse : List Char → Option Json) (buffer data : List Char) :
    List Char × List Json × List (List Char) :=
  ((splitOnNL (buffer ++ data)).getLast?.getD [],
   processLines parse (splitOnNL (buffer ++ data)).dropLast)

/-- A response envelope of the router
(a `content` list of text blocks plus the optional `isError` flag),
keeping the text
blocks and the error flag (absent means false). -/
structure Envelope where
  texts : List String
  isError : Bool
deriving DecidableEq

/-- Result of invoking a local lifecycle handler or the Maestro proxy:
a returned envelope or a thrown error with its message. -/
inductive HandlerOutcome where
  | ok (env : Envelope)
  | err (msg : String)

/-- Failure envelope built by the catch blocks of the router. -/
def errorEnvelope (msg : String) : Envelope :=
  { texts := ["Error: " ++ msg], isError := true }

/-- Keys of `lifecycleToolSchemas` as used by the server in part_005
(the lifecycle module whose handlers take only the Expo manager). -/
def lifecycleToolNames : List String := ["app_status", "launch_expo", "stop_expo"]

/-- Keys of the object returned by `createLifecycleHandlers`. -/
def lifecycleHandlerNames : List String := ["app_status", "launch_expo", "stop_expo"]

/-- Embedding of the `CallToolRequestSchema` handler of
`McpServer.setupHandlers` (part_005 lines 399-443), with the outcome of
the local handler and of the forwarded proxy call supplied by the
environment.  An `Except.error` result is an exception thrown out of
the handler (uncaught by this code). -/
def callToolHandler (name : String) (localRun : String → HandlerOutcome)
    (proxyRun : String → HandlerOutcome) : Except String Envelope :=
  if lifecycleToolNames.contains name then
    if lifecycleHandlerNames.contains name then
      match localRun name with
      | HandlerOutcome.ok env => Except.ok env
      | HandlerOutcome.err m => Except.ok (errorEnvelope m)
    else
      Except.error ("Handler not implemented for tool: " ++ name)
  else if startsWithMaestro name then
    match proxyRun (stripMaestro name) with
    | HandlerOutcome.ok env => Except.ok env
    | HandlerOutcome.err m => Except.ok (errorEnvelope m)
  else
    Except.error ("Unknown tool: " ++ name)

/-- Platform argument of the `stop_device` tool. -/
inductive DevicePlatform where
  | ios
  | android
deriving DecidableEq

/-- The platform word of the success text, the platform argument or
the word `all` when it is omitted. -/
def platformLabel : Option DevicePlatform → String
  | some DevicePlatform.ios => "ios"
  | some DevicePlatform.android => "android"
  | none => "all"

/-- Embedding of the `stop_device` handler
(src/tools/lifecycle.ts lines 243-268), with the outcomes of
`simulatorManager.shutdown()` and `emulatorManager.stop()` supplied by
the environment.  Each shutdown error is caught and logged; the handler
then returns its fixed success envelope.  Returns the envelope and the
error-log lines. -/
def stopDevice (platform : Option DevicePlatform)
    (simShutdownResult emuStopResult : Except String Unit) :
    Envelope × List String :=
  ({ texts := ["Stopped " ++ platformLabel platform ++ " device(s)"],
     isError := false },
   (if platform = none ∨ platform = some DevicePlatform.ios then
      match simShutdownResult with
      | Except.ok _ => []
      | Except.error m => ["Failed to stop iOS simulator: " ++ m]
    else [])
   ++
   (if platform = none ∨ platform = some DevicePlatform.android then
      match emuStopResult with
      | Except.ok _ => []
      | Except.error m => ["Failed to stop Android emulator: " ++ m]
    else []))

/-- Promise-settlement ledger: the first settlement of each correlation
id.  A JS promise settles at most once; a later `resolve`/`reject` call
on the same promise is a no-op. -/
def settledHas : List (Nat × Outcome) → Nat → Bool
  | [], _ => false
  | p :: ps, id => p.1 == id || settledHas ps id

/-- Number of recorded settlements of an id in the ledger. -/
def settledCount : List (Nat × Outcome) → Nat → Nat
  | [], _ => 0
  | p :: ps, id => (if p.1 == id then 1 else 0) + settledCount ps id

/-- Invoke a completion handle: settle the promise of `id` unless it is
already settled. -/
def settleAttempt (ledger : List (Nat × Outcome)) (id : Nat) (o : Outcome) :
    List (Nat × Outcome) :=
  if settledHas ledger id then ledger else ledger ++ [(id, o)]

/-- Apply the completion-handle invocation an operation performed, if
any, to the ledger. -/
def applyCompletion (ledger : List (Nat × Outcome)) :
    Option (Nat × Outcome) → List (Nat × Outcome)
  | none => ledger
  | some (id, o) => settleAttempt ledger id o

/-- Manager state together with the promise ledger. -/
structure SessionObs where
  ms : MaestroState
  ledger : List (Nat × Outcome)

/-- Events that can reach a registered request: a success response frame,
an error response frame, the stdin write callback reporting a failure
(which deletes the entry and calls `reject` unconditionally), and the
timeout timer firing. -/
inductive ReqEvent where
  | respOk (id : Nat) (v : Json)
  | respErr (id : Nat) (e : String)
  | writeFail (id : Nat) (e : String)
  | timeoutFires (id : Nat)

/-- The correlation id an event carries. -/
def ReqEvent.targetId : ReqEvent → Nat
  | .respOk id _ => id
  | .respErr id _ => id
  | .writeFail id _ => id
  | .timeoutFires id => id

/-- One event step: response frames run `handleMessage`, the write
callback deletes the entry and rejects, the timer runs the timeout
callback; every completion-handle invocation goes through the ledger. -/
def stepEvent (st : SessionObs) : ReqEvent → SessionObs
  | ReqEvent.respOk id v =>
      { ms := (handleMessage st.ms { msgId := some id, msgError := none, msgResult := v }).1,
        ledger := applyCompletion st.ledger
          (handleMessage st.ms { msgId := some id, msgError := none, msgResult := v }).2 }
  | ReqEvent.respErr id e =>
      { ms := (handleMessage st.ms { msgId := some id, msgError := some e, msgResult := Json.null }).1,
        ledger := applyCompletion st.ledger
          (handleMessage st.ms { msgId := some id, msgError := some e, msgResult := Json.null }).2 }
  | ReqEvent.writeFail id e =>
      { ms := { st.ms with pendingRequests := mapDelete st.ms.pendingRequests id },
        ledger := settleAttempt st.ledger id (Outcome.rejected e) }
  | ReqEvent.timeoutFires id =>
      { ms := (timeoutFire st.ms id).1,
        ledger := applyCompletion st.ledger (timeoutFire st.ms id).2 }

/-- Run a sequence of events. -/
def runEvents (st : SessionObs) : List ReqEvent → SessionObs
  | [] => st
  | e :: rest => runEvents (stepEvent st e) rest

/-- A manager state with correlation id 7 registered, used to evaluate
the timeout behaviour on a concrete input. -/
def pendingState7 : MaestroState :=
  { process := true, tools := [], requestId := 8, pendingRequests := [7],
    readBuffer := [], isInitialized := true }

/-- A ready session with an empty capability table, used to evaluate the
unknown-capability guard on a concrete input. -/
def readyNoTools : MaestroState :=
  { MaestroState.initial with isInitialized := true, process := true }

/-- A manager state with correlation id 3 registered, used to evaluate
`handleMessage` on a concrete input. -/
def respondedState : MaestroState :=
  { MaestroState.initial with
    process := true, isInitialized := true, requestId := 4, pendingRequests := [3] }

/-- A manager state with correlation id 5 registered, used to evaluate a
concrete event sequence against the exactly-once property. -/
def busyState : MaestroState :=
  { process := true, tools := [], requestId := 6, pendingRequests := [5],
    readBuffer := [], isInitialized := true }

theorem mapHas_mapDelete (m : List Nat) (id : Nat) :
    mapHas (mapDelete m id) id = false := by
  induction m with
  | nil => rfl
  | cons x xs ih => cases hx : x == id <;> simp [mapDelete, mapHas, hx, ih]

theorem drainLoop_eq_map (l : List Nat) :
    drainLoop l = l.map (fun id => (id, Outcome.rejected "Maestro process terminated")) := by
  induction l with
  | nil => rfl
  | cons x xs ih => simp [drainLoop, ih]

theorem settledHas_false_of_count_zero (l : List (Nat × Outcome)) (id : Nat)
    (h : settledCount l id = 0) : settledHas l id = false := by
  induction l with
  | nil => rfl
  | cons p ps ih =>
    cases hp : p.1 == id
    · simp [settledCount, hp] at h
      simp [settledHas, hp, ih h]
    · simp [settledCount, hp] at h

theorem count_zero_of_settledHas_false (l : List (Nat × Outcome)) (id : Nat)
    (h : settledHas l id = false) : settledCount l id = 0 := by
  induction l with
  | nil => rfl
  | cons p ps ih =>
    cases hp : p.1 == id <;> simp [settledHas, hp] at h
    simp [settledCount, hp, ih h]

theorem settledCount_append (l1 l2 : List (Nat × Outcome)) (id : Nat) :
    settledCount (l1 ++ l2) id = settledCount l1 id + settledCount l2 id := by
  induction l1 with
  | nil => simp [settledCount]
  | cons p ps ih =>
    simp [settledCount, ih]
    omega

/-- C10: the `stop_device` handler never produces a failure envelope:
for every platform argument (`ios`, `android`, or omitted) and every
outcome of the simulator and emulator shutdown operations, it returns a
success envelope reporting the device(s) stopped. -/
theorem stop_device_always_succeeds (platform : Option DevicePlatform)
    (simR emuR : Except String Unit) :
    (stopDevice platform simR emuR).1.isError = false ∧
    (stopDevice platform simR emuR).1.texts =
      ["Stopped " ++ platformLabel platform ++ " device(s)"] :=
  ⟨rfl, rfl⟩

/-- C3 counterexample: for the inbound name `screenshot`, which is
neither a local lifecycle tool nor carries the `maestro_` marker, the
call handler throws `Unknown tool: screenshot` out of the handler
instead of returning a normalized failure envelope, whatever the local
and proxy handlers would do. -/
theorem router_unknown_name_throws :
    callToolHandler "screenshot"
      (fun _ => HandlerOutcome.ok { texts := [], isError := false })
      (fun _ => HandlerOutcome.ok { texts := [], isError := false }) =
      Except.error "Unknown tool: screenshot" := rfl

/-- C3 (amended): the call handler converts every error of a local
lifecycle handler and every error of a forwarded peer call into a
uniform failure envelope carrying `Error:` plus the message, and returns
an envelope (never throws) for every local or `maestro_`-marked name;
but a name that is neither local nor marked makes the handler throw an
`Unknown tool` exception rather than return an envelope. -/
theorem router_error_normalization (name : String)
    (localRun proxyRun : String → HandlerOutcome) :
    ((name ∈ lifecycleToolNames ∨ startsWithMaestro name = true) →
      ∃ env, callToolHandler name localRun proxyRun = Except.ok env) ∧
    (name ∈ lifecycleToolNames →
      ∀ m, localRun name = HandlerOutcome.err m →
        callToolHandler name localRun proxyRun = Except.ok (errorEnvelope m)) ∧
    (name ∉ lifecycleToolNames → startsWithMaestro name = true →
      ∀ m, proxyRun (stripMaestro name) = HandlerOutcome.err m →
        callToolHandler name localRun proxyRun = Except.ok (errorEnvelope m)) ∧
    (name ∉ lifecycleToolNames → startsWithMaestro name = false →
      callToolHandler name localRun proxyRun =
        Except.error ("Unknown tool: " ++ name)) := by
  have hsame : lifecycleHandlerNames = lifecycleToolNames := rfl
  refine ⟨?_, ?_, ?_, ?_⟩
  · rintro (h | h)
    · cases hr : localRun name <;>
        simp [callToolHandler, hsame, h, hr]
    · by_cases hc : name ∈ lifecycleToolNames
      · cases hr : localRun name <;>
          simp [callToolHandler, hsame, hc, hr]
      · cases hr : proxyRun (stripMaestro name) <;>
          simp [callToolHandler, hsame, hc, h, hr]
  · intro h m hm
    simp [callToolHandler, hsame, h, hm]
  · intro hc hp m hm
    simp [callToolHandler, hsame, hc, hp, hm]
  · intro hc hp
    simp [callToolHandler, hsame, hc, hp]

/-- C3 witness: at the concrete local name `app_status` whose handler
throws `boom`, the call handler returns the uniform failure envelope. -/
theorem router_error_normalization_witness :
    callToolHandler "app_status" (fun _ => HandlerOutcome.err "boom")
      (fun _ => HandlerOutcome.ok { texts := [], isError := false }) =
      Except.ok (errorEnvelope "boom") :=
  (router_error_normalization "app_status" (fun _ => HandlerOutcome.err "boom")
    (fun _ => HandlerOutcome.ok { texts := [], isError := false })).2.1
    (by decide) "boom" rfl

/-- C4: when the peer process terminates, the exit handler rejects every
pending request with the uniform termination error (one rejection per
pending entry, in order), clears the pending table, marks the session
not ready, clears the capability table and drops the process handle. -/
theorem peer_termination_drains_all (s : MaestroState) :
    (onProcessExit s).2 =
      s.pendingRequests.map (fun id => (id, Outcome.rejected "Maestro process terminated")) ∧
    (onProcessExit s).2.length = s.pendingRequests.length ∧
    (onProcessExit s).1.pendingRequests = [] ∧
    (onProcessExit s).1.isInitialized = false ∧
    (onProcessExit s).1.tools = [] ∧
    (onProcessExit s).1.process = false := by
  refine ⟨drainLoop_eq_map s.pendingRequests, ?_, rfl, rfl, rfl, rfl⟩
  simp [onProcessExit, cleanup, drainLoop_eq_map]

/-- C9: shutdown is idempotent: on a stopped session it returns without
error and changes nothing, and a second shutdown right after a first one
performs no completion-handle invocation and leaves every state field
identical to the state after the single call. -/
theorem shutdown_idempotent (s : MaestroState) (e1 e2 : Bool) :
    (s.process = false → shutdownModel s e1 = (s, [])) ∧
    shutdownModel (shutdownModel s e1).1 e2 = ((shutdownModel s e1).1, []) := by
  constructor
  · intro h
    simp [shutdownModel, h]
  · cases hp : s.process
    · simp [shutdownModel, hp]
    · cases e1 <;> simp [shutdownModel, hp, cleanup]

/-- C9 witness: shutdown of the freshly constructed (stopped) manager is
a no-op, and a second shutdown after it changes nothing. -/
theorem shutdown_idempotent_witness :
    shutdownModel MaestroState.initial true = (MaestroState.initial, []) ∧
    shutdownModel (shutdownModel MaestroState.initial true).1 false =
      ((shutdownModel MaestroState.initial true).1, []) :=
  ⟨(shutdown_idempotent MaestroState.initial true false).1 rfl,
   (shutdown_idempotent MaestroState.initial true false).2⟩

/-- C5: a request issued while the process is alive schedules a timer of
exactly 30000 ms under its correlation id; when the timer fires on a
still-pending id the entry is removed and the caller rejected with the
timeout error, and when the id is no longer pending the firing changes
nothing. -/
theorem request_timeout_ceiling (s : MaestroState) (req : Request) (id : Nat) :
    (s.process = true →
      (sendRequestStart s req).timer = some { reqId := req.id, delayMs := 30000 }) ∧
    (mapHas s.pendingRequests id = true →
      timeoutFire s id =
        ({ s with pendingRequests := mapDelete s.pendingRequests id },
         some (id, Outcome.rejected "Request timeout"))) ∧
    (mapHas s.pendingRequests id = false → timeoutFire s id = (s, none)) := by
  refine ⟨?_, ?_, ?_⟩ <;> intro h <;>
    simp [sendRequestStart, timeoutFire, h, REQUEST_TIMEOUT_MS]

/-- C5 witness: concrete evaluation with id 7 registered, then with no
pending entry. -/
theorem request_timeout_ceiling_witness :
    (sendRequestStart pendingState7
      { method := "tools/call", id := 7, params := Json.obj [] }).timer =
      some { reqId := 7, delayMs := 30000 } ∧
    timeoutFire pendingState7 7 =
      ({ pendingState7 with pendingRequests := mapDelete pendingState7.pendingRequests 7 },
       some (7, Outcome.rejected "Request timeout")) ∧
    timeoutFire MaestroState.initial 7 = (MaestroState.initial, none) :=
  ⟨(request_timeout_ceiling pendingState7
      { method := "tools/call", id := 7, params := Json.obj [] } 7).1 rfl,
   (request_timeout_ceiling pendingState7
      { method := "tools/call", id := 7, params := Json.obj [] } 7).2.1 rfl,
   (request_timeout_ceiling MaestroState.initial
      { method := "tools/call", id := 7, params := Json.obj [] } 7).2.2 rfl⟩

/-- C6: `callTool` fails immediately with the not-initialized error when
the session never completed startup, and with the unknown-tool error
when the name is absent from the capability table; in both cases the
state is unchanged (no correlation id consumed, nothing registered),
nothing is written to the transport and no timer is scheduled. -/
theorem callTool_guard_failures (s : MaestroState) (name : String) (args : Json) :
    (s.isInitialized = false →
      callToolStart s name args =
        { state := s, result := Except.error errNotInitializedMsg,
          written := none, timer := none }) ∧
    (s.isInitialized = true → hasTool s.tools name = false →
      callToolStart s name args =
        { state := s, result := Except.error (toolNotFoundMsg name),
          written := none, timer := none }) := by
  constructor
  · intro h
    simp [callToolStart, h]
  · intro h1 h2
    simp [callToolStart, h1, h2]

/-- C6 witness: concrete evaluation on the fresh manager and on a ready
session with an empty capability table. -/
theorem callTool_guard_failures_witness :
    callToolStart MaestroState.initial "tap" Json.null =
      { state := MaestroState.initial, result := Except.error errNotInitializedMsg,
        written := none, timer := none } ∧
    callToolStart readyNoTools "tap" Json.null =
      { state := readyNoTools, result := Except.error (toolNotFoundMsg "tap"),
        written := none, timer := none } :=
  ⟨(callTool_guard_failures MaestroState.initial "tap" Json.null).1 rfl,
   (callTool_guard_failures readyNoTools "tap" Json.null).2 rfl rfl⟩

/-- C8: whenever `handleMessage` invokes a completion handle for an id,
the pending entry for that id has already been deleted: the state in
which the handle runs (the returned state) is the deleted table, and a
re-entrant lookup of the id in it fails. -/
theorem response_removes_entry_before_completion (s : MaestroState)
    (msg : WireMessage) (id : Nat) (out : Outcome)
    (h : (handleMessage s msg).2 = some (id, out)) :
    (handleMessage s msg).1.pendingRequests = mapDelete s.pendingRequests id ∧
    mapHas (handleMessage s msg).1.pendingRequests id = false := by
  match hm : msg.msgId with
  | none => simp [handleMessage, hm] at h
  | some j =>
    cases hp : mapHas s.pendingRequests j
    · simp [handleMessage, hm, hp] at h
    · match he : msg.msgError with
      | some e =>
        simp [handleMessage, hm, hp, he] at h ⊢
        obtain ⟨rfl, -⟩ := h
        exact ⟨rfl, mapHas_mapDelete _ _⟩
      | none =>
        simp [handleMessage, hm, hp, he] at h ⊢
        obtain ⟨rfl, -⟩ := h
        exact ⟨rfl, mapHas_mapDelete _ _⟩

/-- C8 witness: a concrete success response for registered id 3. -/
theorem response_removes_entry_before_completion_witness :
    (handleMessage respondedState
      { msgId := some 3, msgError := none, msgResult := Json.null }).1.pendingRequests =
      mapDelete respondedState.pendingRequests 3 ∧
    mapHas (handleMessage respondedState
      { msgId := some 3, msgError := none, msgResult := Json.null }).1.pendingRequests 3 = false :=
  response_removes_entry_before_completion respondedState
    { msgId := some 3, msgError := none, msgResult := Json.null } 3
    (Outcome.resolved Json.null)
    (by simp [handleMessage, respondedState, MaestroState.initial, mapHas, mapDelete])

theorem processLines_characterization (parse : List Char → Option Json)
    (ls : List (List Char)) :
    processLines parse ls =
      (ls.filterMap (fun l => if isBlank l then none else parse l),
       ls.filter (fun l => !isBlank l && (parse l).isNone)) := by
  induction ls with
  | nil => rfl
  | cons line rest ih =>
    cases hb : isBlank line
    · cases hp : parse line <;>
        simp [processLines, hb, hp, List.filterMap_cons, List.filter_cons, ih]
    · simp [processLines, hb, List.filterMap_cons, List.filter_cons, ih]

/-- C7 (amended): for every buffer and chunk, the decoder keeps the text
after the last newline as the new buffer; of the lines before a newline
it dispatches, in order, exactly those that are non-blank (nonempty
after trimming whitespace) and parse, and records as logged failures, in
order, exactly the non-blank lines that fail to parse — so a parse
failure never aborts the decoding of the remaining lines.  Blank lines
(including nonempty whitespace-only ones) are skipped silently without a
parse attempt. -/
theorem stream_decode_characterization (parse : List Char → Option Json)
    (buffer data : List Char) :
    handleStdout parse buffer data =
      ((splitOnNL (buffer ++ data)).getLast?.getD [],
       ((splitOnNL (buffer ++ data)).dropLast).filterMap
         (fun l => if isBlank l then none else parse l),
       ((splitOnNL (buffer ++ data)).dropLast).filter
         (fun l => !isBlank l && (parse l).isNone)) := by
  simp [handleStdout, processLines_characterization]

/-- C7 counterexample: the chunk consisting of one space and a newline
contains the non-empty line made of a single space.  `JSON.parse`
rejects whitespace-only input (the stand-in parser here rejects every
line), so by the claim that line should be parsed and its failure logged
and skipped; the decoder instead skips it without any parse attempt, and
its failure log stays empty. -/
theorem stream_decode_blank_line_skipped_silently :
    ([' '] ≠ ([] : List Char)) ∧
    (fun (_ : List Char) => (none : Option Json)) [' '] = none ∧
    handleStdout (fun _ => none) [] [' ', '\n'] = ([], [], []) :=
  ⟨by decide, rfl, rfl⟩

theorem stepEvent_settles (st : SessionObs) (e : ReqEvent) (id : Nat)
    (ht : e.targetId = id)
    (hp : mapHas st.ms.pendingRequests id = true)
    (hc : settledCount st.ledger id = 0) :
    mapHas (stepEvent st e).ms.pendingRequests id = false ∧
    settledCount (stepEvent st e).ledger id = 1 := by
  have hhas : settledHas st.ledger id = false :=
    settledHas_false_of_count_zero st.ledger id hc
  cases e with
  | respOk j v =>
    simp [ReqEvent.targetId] at ht
    subst ht
    simp [stepEvent, handleMessage, hp, applyCompletion, settleAttempt, hhas,
          mapHas_mapDelete, settledCount_append, hc, settledCount]
  | respErr j err =>
    simp [ReqEvent.targetId] at ht
    subst ht
    simp [stepEvent, handleMessage, hp, applyCompletion, settleAttempt, hhas,
          mapHas_mapDelete, settledCount_append, hc, settledCount]
  | writeFail j err =>
    simp [ReqEvent.targetId] at ht
    subst ht
    simp [stepEvent, applyCompletion, settleAttempt, hhas,
          mapHas_mapDelete, settledCount_append, hc, settledCount]
  | timeoutFires j =>
    simp [ReqEvent.targetId] at ht
    subst ht
    simp [stepEvent, timeoutFire, hp, applyCompletion, settleAttempt, hhas,
          mapHas_mapDelete, settledCount_append, hc, settledCount]

theorem stepEvent_noop (st : SessionObs) (e : ReqEvent) (id : Nat)
    (ht : e.targetId = id)
    (hp : mapHas st.ms.pendingRequests id = false)
    (hh : settledHas st.ledger id = true) :
    mapHas (stepEvent st e).ms.pendingRequests id = false ∧
    (stepEvent st e).ledger = st.ledger := by
  cases e with
  | respOk j v =>
    simp [ReqEvent.targetId] at ht
    subst ht
    simp [stepEvent, handleMessage, hp, applyCompletion]
  | respErr j err =>
    simp [ReqEvent.targetId] at ht
    subst ht
    simp [stepEvent, handleMessage, hp, applyCompletion]
  | writeFail j err =>
    simp [ReqEvent.targetId] at ht
    subst ht
    simp [stepEvent, applyCompletion, settleAttempt, hh, mapHas_mapDelete]
  | timeoutFires j =>
    simp [ReqEvent.targetId] at ht
    subst ht
    simp [stepEvent, timeoutFire, hp, applyCompletion]

theorem runEvents_stable (id : Nat) (evs : List ReqEvent) :
    ∀ st : SessionObs, (∀ e ∈ evs, ReqEvent.targetId e = id) →
      mapHas st.ms.pendingRequests id = false →
      settledHas st.ledger id = true →
      settledCount st.ledger id = 1 →
      mapHas (runEvents st evs).ms.pendingRequests id = false ∧
      settledCount (runEvents st evs).ledger id = 1 := by
  induction evs with
  | nil =>
    intro st _ hp _ hc
    exact ⟨hp, hc⟩
  | cons e rest ih =>
    intro st hall hp hh hc
    have ht := hall e (List.mem_cons_self e rest)
    have hstep := stepEvent_noop st e id ht hp hh
    have hrun : runEvents st (e :: rest) = runEvents (stepEvent st e) rest := rfl
    rw [hrun]
    refine ih (stepEvent st e) (fun e' he' => hall e' (List.mem_cons_of_mem e he'))
      hstep.1 ?_ ?_
    · rw [hstep.2]; exact hh
    · rw [hstep.2]; exact hc

/-- C1: for a correlation id registered in the pending table and not yet
settled, any nonempty sequence of response-delivery, error-response,
write-failure and timeout events for that id settles its completion
handle exactly once (the promise records exactly one settlement), and
afterwards the id is absent from the table, every further event being a
no-op; every step is a total function, so no event throws out of the
receive path. -/
theorem pending_completion_fires_exactly_once (st : SessionObs) (id : Nat)
    (evs : List ReqEvent)
    (hp : mapHas st.ms.pendingRequests id = true)
    (hc : settledCount st.ledger id = 0)
    (hne : evs ≠ [])
    (hall : ∀ e ∈ evs, ReqEvent.targetId e = id) :
    settledCount (runEvents st evs).ledger id = 1 ∧
    mapHas (runEvents st evs).ms.pendingRequests id = false := by
  cases evs with
  | nil => exact absurd rfl hne
  | cons e rest =>
    have ht := hall e (List.mem_cons_self e rest)
    have hstep := stepEvent_settles st e id ht hp hc
    have hcnt := hstep.2
    have hh : settledHas (stepEvent st e).ledger id = true := by
      cases hhh : settledHas (stepEvent st e).ledger id
      · have := count_zero_of_settledHas_false (stepEvent st e).ledger id hhh
        omega
      · rfl
    have hr := runEvents_stable id rest (stepEvent st e)
      (fun e' he' => hall e' (List.mem_cons_of_mem e he')) hstep.1 hh hstep.2
    exact ⟨hr.2, hr.1⟩

/-- C1 witness: with id 5 registered, the event sequence timeout, then
write failure, then a late success response settles the promise exactly
once and leaves the table without the entry. -/
theorem pending_completion_fires_exactly_once_witness :
    settledCount (runEvents { ms := busyState, ledger := [] }
      [ReqEvent.timeoutFires 5, ReqEvent.writeFail 5 "EPIPE",
       ReqEvent.respOk 5 Json.null]).ledger 5 = 1 ∧
    mapHas (runEvents { ms := busyState, ledger := [] }
      [ReqEvent.timeoutFires 5, ReqEvent.writeFail 5 "EPIPE",
       ReqEvent.respOk 5 Json.null]).ms.pendingRequests 5 = false :=
  pending_completion_fires_exactly_once { ms := busyState, ledger := [] } 5
    [ReqEvent.timeoutFires 5, ReqEvent.writeFail 5 "EPIPE", ReqEvent.respOk 5 Json.null]
    rfl rfl (List.cons_ne_nil _ _)
    (by intro e he; simp at he; rcases he with rfl | rfl | rfl <;> rfl)

/-- C2: starting from a session that never completed startup (not ready,
no capabilities, empty pending table), if either handshake await fails —
error response, timeout, write failure, or process death — then the
startup call ends with a thrown error, the session is not ready, the
capability table is empty and the pending table is empty; the state is
clean enough that an immediate retry of startup under successful
outcomes succeeds. -/
theorem failed_startup_leaves_clean_state (s : MaestroState) (o1 o2 : AwaitOutcome)
    (hinit : s.isInitialized = false) (htools : s.tools = [])
    (hpend : s.pendingRequests = [])
    (hfail : o1.isFailure = true ∨ o2.isFailure = true) :
    (∃ e, (initializeModel s o1 o2).2 = Except.error e) ∧
    (initializeModel s o1 o2).1.isInitialized = false ∧
    (initializeModel s o1 o2).1.tools = [] ∧
    (initializeModel s o1 o2).1.pendingRequests = [] ∧
    (initializeModel (initializeModel s o1 o2).1
      (AwaitOutcome.respOk Json.null) (AwaitOutcome.respOk Json.null)).2 =
      Except.ok () := by
  cases o1 <;> cases o2 <;>
    simp [AwaitOutcome.isFailure] at hfail <;>
    simp [initializeModel, runRequest, sendRequestStart, awaitRequest, handleMessage,
          timeoutFire, cleanup, mapHas, mapDelete, populateTools, getField,
          hinit, htools, hpend]

/-- C2 witness: the first handshake request of a fresh manager times
out. -/
theorem failed_startup_leaves_clean_state_witness :
    (∃ e, (initializeModel MaestroState.initial AwaitOutcome.timedOut
      (AwaitOutcome.respOk Json.null)).2 = Except.error e) ∧
    (initializeModel MaestroState.initial AwaitOutcome.timedOut
      (AwaitOutcome.respOk Json.null)).1.isInitialized = false ∧
    (initializeModel MaestroState.initial AwaitOutcome.timedOut
      (AwaitOutcome.respOk Json.null)).1.tools = [] ∧
    (initializeModel MaestroState.initial AwaitOutcome.timedOut
      (AwaitOutcome.respOk Json.null)).1.pendingRequests = [] ∧
    (initializeModel (initializeModel MaestroState.initial AwaitOutcome.timedOut
        (AwaitOutcome.respOk Json.null)).1
      (AwaitOutcome.respOk Json.null) (AwaitOutcome.respOk Json.null)).2 =
      Except.ok () :=
  failed_startup_leaves_clean_state MaestroState.initial AwaitOutcome.timedOut
    (AwaitOutcome.respOk Json.null) rfl rfl rfl (Or.inl rfl)
